import Mathlib

/-!
Verification development for the AI-Powered Data Analysis Tool.

Part I embeds the upload-form validation logic of
`frontend/src/components/FileUpload/FileUpload.jsx` (the only component
whose implementation ships in this repository).

Part II models the Preprocessing Engine (column profiling, plan
recommendation, transformation execution, version management) whose
backend implementation is not part of the shipped sources; those
definitions are modelled from the specification and are marked as such.
-/

namespace DataTool

/-! ## Part I: FileUpload validation (embedded from FileUpload.jsx) -/

/-- Lowercasing, character by character (the JS `toLowerCase`). -/
def lowerStr (s : String) : String := ⟨s.data.map Char.toLower⟩

/-- Suffix test (the JS `endsWith`): the last characters of `s` spell `t`. -/
def endsWithStr (s t : String) : Bool :=
  s.data.reverse.take t.data.length == t.data.reverse

/-- Whitespace trimming at both ends (the JS `trim`). -/
def trimStr (s : String) : String :=
  ⟨((s.data.dropWhile Char.isWhitespace).reverse.dropWhile Char.isWhitespace).reverse⟩

/-- Character count of a string (the JS `length`). -/
def strLen (s : String) : Nat := s.data.length

/-- A candidate upload: the two attributes `validateFile` inspects. -/
structure UploadFile where
  name : String
  size : Nat
deriving DecidableEq, Repr

/-- The `supportedTypes` constant of FileUpload.jsx. -/
def supportedTypes : List String := [".csv", ".xlsx", ".xls", ".json", ".tsv"]

/-- The `maxFileSize` constant of FileUpload.jsx (100 MB). -/
def maxFileSize : Nat := 100 * 1024 * 1024

/-- Embedding of `validateFile`: returns the boolean verdict together with
the `errors.file` entry it records (the size check overwrites the type
check on the same key, exactly as in the source). -/
def validateFile (selectedFile : Option UploadFile) : Bool × Option String :=
  match selectedFile with
  | none => (false, some "Please select a file")
  | some f =>
    let fileName := lowerStr f.name
    let isValidType := supportedTypes.any (fun t => endsWithStr fileName t)
    let typeErr : Option String :=
      if isValidType then none else some "Unsupported file type"
    let finalErr : Option String :=
      if f.size > maxFileSize then some "File size exceeds 100MB limit" else typeErr
    (finalErr.isNone, finalErr)

/-- Embedding of `validateDescription`: the three guarded error branches of
the source, in order. -/
def validateDescription (desc : String) : Bool × Option String :=
  let t := trimStr desc
  if strLen t = 0 then (false, some "Description is required")
  else if strLen t < 10 then (false, some "Description must be at least 10 characters")
  else if strLen desc > 1000 then (false, some "Description must not exceed 1000 characters")
  else (true, none)

/-- Embedding of the guard at the top of `handleUpload`: the upload request
is issued only when both validators succeed. -/
def handleUploadProceeds (selectedFile : Option UploadFile) (desc : String) : Bool :=
  (validateFile selectedFile).1 && (validateDescription desc).1

/-! ## Part II: the Preprocessing Engine

Modelled from the spec: the backend package (`preprocessing_service.py`
and friends) is not among the shipped sources, so every definition below
follows the wording of the specification. Numeric cells are exact
fractions (integer numerator over positive integer denominator, no
normalisation, so every operation reduces inside the kernel); the
standard deviation used for scaling is replaced by an integer square
root approximation, and the z-score test is stated in its exact squared
form, so every statistic stays an exact fraction. -/

/-- An exact fraction. All constructors used by the model keep the
denominator positive, and no operation normalises, so arithmetic reduces
definitionally. -/
structure Frac where
  num : Int
  den : Int
deriving DecidableEq, Repr

instance (n : Nat) : OfNat Frac n := ⟨⟨(n : Int), 1⟩⟩

/-- Fraction addition (cross multiplication, no reduction). -/
def Frac.add (a b : Frac) : Frac := ⟨a.num * b.den + b.num * a.den, a.den * b.den⟩

/-- Fraction subtraction. -/
def Frac.sub (a b : Frac) : Frac := ⟨a.num * b.den - b.num * a.den, a.den * b.den⟩

/-- Fraction multiplication. -/
def Frac.mul (a b : Frac) : Frac := ⟨a.num * b.num, a.den * b.den⟩

/-- Fraction division; division by a zero fraction yields 0, and the sign
is moved into the numerator so the denominator stays positive. -/
def Frac.div (a b : Frac) : Frac :=
  if b.num = 0 then ⟨0, 1⟩
  else if 0 < b.num then ⟨a.num * b.den, a.den * b.num⟩
  else ⟨-(a.num * b.den), a.den * (-b.num)⟩

instance : Add Frac := ⟨Frac.add⟩

instance : Sub Frac := ⟨Frac.sub⟩

instance : Mul Frac := ⟨Frac.mul⟩

instance : Div Frac := ⟨Frac.div⟩

/-- Strict comparison of fractions (valid for positive denominators). -/
def Frac.blt (a b : Frac) : Bool := a.num * b.den < b.num * a.den

/-- Non-strict comparison of fractions. -/
def Frac.ble (a b : Frac) : Bool := a.num * b.den ≤ b.num * a.den

/-- Semantic equality of fractions (cross multiplication). -/
def Frac.equiv (a b : Frac) : Bool := a.num * b.den == b.num * a.den

/-- Embedding of an integer. -/
def Frac.ofInt (n : Int) : Frac := ⟨n, 1⟩

/-- Sum of a list of fractions. -/
def Frac.sumL (xs : List Frac) : Frac := xs.foldr Frac.add 0

/-- A cell value: numeric or textual. -/
inductive Value
  | num (q : Frac)
  | str (s : String)
deriving DecidableEq, Repr

/-- Semantic equality of cell values: numeric values compare as
fractions, strings literally. -/
def Value.beqv : Value → Value → Bool
  | .num a, .num b => Frac.equiv a b
  | .str s, .str t => s == t
  | _, _ => false

/-- A cell: `none` denotes a missing entry. -/
abbrev Cell := Option Value

/-- A table: ordered list of named columns with their cell lists. -/
abbrev Table := List (String × List Cell)

/-- Row count of a table, read off the first column (pandas keeps the row
index even when all columns are dropped, so execution carries the input
row count separately). -/
def Table.rowCount (t : Table) : Nat :=
  match t with
  | [] => 0
  | c :: _ => c.2.length

/-- Well-formedness: every column has exactly `rowCount` cells. -/
def Table.Wellformed (t : Table) : Prop :=
  ∀ e ∈ t, e.2.length = t.rowCount

instance (t : Table) : Decidable t.Wellformed :=
  List.decidableBAll _ t

/-- Values present (non-missing) in a cell list. -/
def presentVals (cells : List Cell) : List Value :=
  cells.filterMap id

/-- Distinct values of a list, up to semantic value equality. -/
def dedupVals : List Value → List Value
  | [] => []
  | v :: vs => if (dedupVals vs).any (Value.beqv v) then dedupVals vs else v :: dedupVals vs

/-- Numeric cells paired with their row indices. -/
def numericPoints (cells : List Cell) : List (Nat × Frac) :=
  cells.enum.filterMap fun p =>
    match p.2 with
    | some (Value.num q) => some (p.1, q)
    | _ => none

/-- The numeric values of a column, in row order. -/
def numericVals (cells : List Cell) : List Frac :=
  (numericPoints cells).map Prod.snd

/-- Insertion into a sorted list of fractions. -/
def insertQ (x : Frac) : List Frac → List Frac
  | [] => [x]
  | y :: ys => if x.ble y then x :: y :: ys else y :: insertQ x ys

/-- Insertion sort for fractions. -/
def sortQ : List Frac → List Frac
  | [] => []
  | x :: xs => insertQ x (sortQ xs)

/-- Mean of a list of fractions (0 for the empty list). -/
def listMean (xs : List Frac) : Frac :=
  if xs.length = 0 then 0 else Frac.sumL xs / Frac.ofInt xs.length

/-- Sample variance (denominator n - 1; 0 when fewer than two points). -/
def sampleVar (xs : List Frac) : Frac :=
  if xs.length < 2 then 0
  else
    Frac.sumL (xs.map (fun x => (x - listMean xs) * (x - listMean xs)))
      / Frac.ofInt ((xs.length : Int) - 1)

/-- Linearly interpolated quantile of a sorted list at position
`(length - 1) * num / den`. -/
def quantileAt (sorted : List Frac) (nm den : Nat) : Frac :=
  match sorted with
  | [] => 0
  | _ =>
    let t := (sorted.length - 1) * nm
    let lo := t / den
    let r : Frac := ⟨((t % den : Nat) : Int), (den : Int)⟩
    let a := sorted.getD lo 0
    let b := sorted.getD (lo + 1) a
    a + r * (b - a)

/-- First quartile of a column's numeric values. -/
def colQ1 (cells : List Cell) : Frac := quantileAt (sortQ (numericVals cells)) 1 4

/-- Third quartile of a column's numeric values. -/
def colQ3 (cells : List Cell) : Frac := quantileAt (sortQ (numericVals cells)) 3 4

/-- IQR detector: value outside [Q1 - 1.5 IQR, Q3 + 1.5 IQR]. -/
def iqrFlag (cells : List Cell) (x : Frac) : Bool :=
  let q1 := colQ1 cells
  let q3 := colQ3 cells
  let iqr := q3 - q1
  Frac.blt x (q1 - ⟨3, 2⟩ * iqr) || Frac.blt (q3 + ⟨3, 2⟩ * iqr) x

/-- Z-score detector, in exact squared form: with m the sample mean and v
the sample variance, flag x when (x - m)^2 > 9 v, which for v > 0 is
equivalent to the absolute z-score exceeding 3. Columns with fewer than
two numeric points are never flagged. -/
def zscoreFlag (cells : List Cell) (x : Frac) : Bool :=
  let xs := numericVals cells
  if xs.length < 2 then false
  else Frac.blt ((9 : Frac) * sampleVar xs) ((x - listMean xs) * (x - listMean xs))

/-- The detector that flagged a value. -/
inductive Method
  | iqr
  | zscore
deriving DecidableEq, Repr

/-- The detecting methods recorded for a value (empty when no detector
flags it). -/
def methodsFor (cells : List Cell) (x : Frac) : List Method :=
  (if iqrFlag cells x then [Method.iqr] else [])
    ++ (if zscoreFlag cells x then [Method.zscore] else [])

/-- Outlier report of a numeric column: every row index flagged by at
least one detector, with the detecting methods recorded. -/
def detectOutliers (cells : List Cell) : List (Nat × List Method) :=
  (numericPoints cells).filterMap fun p =>
    if methodsFor cells p.2 = [] then none else some (p.1, methodsFor cells p.2)

/-! ### Column Classifier (modelled from the spec, section 4.1) -/

/-- The semantic role of a column. -/
inductive Role
  | numeric
  | categorical
  | datetime
  | text
  | identifier
deriving DecidableEq, Repr

/-- Whether a string is a run of one or more digits. -/
def digitRun (s : String) : Bool :=
  !s.isEmpty && s.toList.all Char.isDigit

/-- Modelled from the spec: a value parses as a date under the common
ISO form `YYYY-MM-DD` (a stand-in for the small set of common formats the
spec mentions). -/
def isDateLike (v : Value) : Bool :=
  match v with
  | .num _ => false
  | .str s =>
    match s.splitOn "-" with
    | [y, m, d] => digitRun y && digitRun m && digitRun d
        && (y.length == 4) && (m.length == 2) && (d.length == 2)
    | _ => false

/-- Whether a value is numeric. -/
def isNumVal (v : Value) : Bool :=
  match v with
  | .num _ => true
  | .str _ => false

/-- Absolute cap on the distinct count of a categorical column. -/
def catAbsCap : Nat := 20

/-- Modelled from the spec: the ordered role heuristics of the Column
Classifier (first match wins); an all-missing column is classified text. -/
def classifyColumn (nRows idx : Nat) (nm : String) (cells : List Cell) : Role :=
  let present := presentVals cells
  let distinct := dedupVals present
  if present.isEmpty then .text
  else if distinct.length == present.length
      && (endsWithStr (lowerStr nm) "id" || idx == 0) then .identifier
  else if 10 * present.countP isDateLike ≥ 9 * present.length then .datetime
  else if present.all isNumVal then
    (if distinct.length > Nat.sqrt nRows then .numeric else .categorical)
  else if 20 * distinct.length < nRows && distinct.length ≤ catAbsCap then .categorical
  else .text

/-! ### Quality Profiler (modelled from the spec, section 4.2) -/

/-- Numeric summary statistics of a column. -/
structure NumStats where
  minV : Frac
  maxV : Frac
  mean : Frac
  var : Frac
  q1 : Frac
  q3 : Frac
deriving DecidableEq, Repr

/-- Minimum of a list of fractions (0 for the empty list). -/
def listMin (xs : List Frac) : Frac :=
  match xs with
  | [] => 0
  | x :: rest => rest.foldl (fun a b => if a.ble b then a else b) x

/-- Maximum of a list of fractions (0 for the empty list). -/
def listMax (xs : List Frac) : Frac :=
  match xs with
  | [] => 0
  | x :: rest => rest.foldl (fun a b => if a.ble b then b else a) x

/-- The profile of one column. -/
structure ColumnProfile where
  name : String
  role : Role
  missingCount : Nat
  missingFrac : Frac
  uniqueCount : Nat
  outlierIdx : List (Nat × List Method)
  stats : Option NumStats
  allMissing : Bool
deriving DecidableEq, Repr

/-- Modelled from the spec: profile of one column. Numeric statistics are
null (none) when the column has no numeric values, never an error. -/
def profileColumn (nRows idx : Nat) (nm : String) (cells : List Cell) : ColumnProfile :=
  let present := presentVals cells
  let role := classifyColumn nRows idx nm cells
  let missing := cells.length - present.length
  let xs := numericVals cells
  { name := nm
  , role := role
  , missingCount := missing
  , missingFrac :=
      if cells.length = 0 then 0 else Frac.ofInt missing / Frac.ofInt cells.length
  , uniqueCount := (dedupVals present).length
  , outlierIdx := if role = .numeric then detectOutliers cells else []
  , stats :=
      if role = .numeric && !xs.isEmpty then
        some { minV := listMin xs, maxV := listMax xs
             , mean := listMean xs, var := sampleVar xs
             , q1 := quantileAt (sortQ xs) 1 4, q3 := quantileAt (sortQ xs) 3 4 }
      else none
  , allMissing := present.isEmpty }

/-- Modelled from the spec: profile every column of a dataset. -/
def profileTable (d : Table) : List ColumnProfile :=
  d.enum.map fun p => profileColumn d.rowCount p.1 p.2.1 p.2.2

/-! ### Plan Recommender (modelled from the spec, section 4.3) -/

/-- Imputation strategies. -/
inductive ImputeStrategy
  | mean
  | median
  | most_frequent
  | constant
  | none
deriving DecidableEq, Repr

/-- Encoding choices. -/
inductive EncodingKind
  | one_hot
  | none
deriving DecidableEq, Repr

/-- Scaling choices. -/
inductive ScalingKind
  | standard
  | minmax
  | none
deriving DecidableEq, Repr

/-- The per-column transformation instructions. -/
structure Directive where
  imputation : ImputeStrategy
  encoding : EncodingKind
  scaling : ScalingKind
deriving DecidableEq, Repr

/-- The directive leaving a column untouched. -/
def noopDirective : Directive :=
  { imputation := .none, encoding := .none, scaling := .none }

/-- A plan: ordered mapping from column name to directive. -/
abbrev Plan := List (String × Directive)

/-- One-hot cardinality threshold (spec default: 20 categories). -/
def oneHotThreshold : Nat := 20

/-- Whether the profiled values already look bounded inside [0, 1]. -/
def boundedZeroOne (p : ColumnProfile) : Bool :=
  match p.stats with
  | Option.none => false
  | Option.some st => Frac.ble 0 st.minV && Frac.ble st.maxV 1

/-- Modelled from the spec: the deterministic directive rules of the Plan
Recommender. -/
def recDirective (p : ColumnProfile) : Directive :=
  { imputation :=
      match p.role with
      | .numeric =>
        if decide (p.missingCount > 0) && !p.outlierIdx.isEmpty then .median else .mean
      | .categorical => .most_frequent
      | _ => .none
  , encoding :=
      match p.role with
      | .categorical => if p.uniqueCount ≤ oneHotThreshold then .one_hot else .none
      | _ => .none
  , scaling :=
      match p.role with
      | .numeric => if boundedZeroOne p then .minmax else .standard
      | _ => .none }

/-- Modelled from the spec: recommend a complete plan, one directive per
profiled column, never failing on valid profiles. -/
def recommend (profiles : List ColumnProfile) : Plan :=
  profiles.map fun p => (p.name, recDirective p)

/-! ### Transformation Executor (modelled from the spec, section 4.4) -/

/-- Count of cells semantically equal to a given value. -/
def countVal (cells : List Cell) (v : Value) : Nat :=
  cells.countP fun c =>
    match c with
    | Option.some w => Value.beqv w v
    | Option.none => false

/-- Most frequent non-missing value of a column (none when all missing);
the earliest value among those of maximal count wins. -/
def mostFrequentVal (cells : List Cell) : Option Value :=
  (dedupVals (presentVals cells)).foldl
    (fun best v =>
      match best with
      | Option.none => some v
      | Option.some b => if countVal cells v > countVal cells b then some v else best)
    Option.none

/-- Modelled from the spec: the fill value of an imputation strategy for
a column (none when the strategy is `none` or no value is computable; the
`constant` strategy fills with 0, mirroring the scikit-learn default). -/
def fillValue (s : ImputeStrategy) (cells : List Cell) : Option Value :=
  match s with
  | .none => Option.none
  | .constant => some (Value.num 0)
  | .most_frequent => mostFrequentVal cells
  | .mean =>
    if (numericVals cells).isEmpty then Option.none
    else some (Value.num (listMean (numericVals cells)))
  | .median =>
    if (numericVals cells).isEmpty then Option.none
    else some (Value.num (quantileAt (sortQ (numericVals cells)) 1 2))

/-- Imputation fills only missing cells; non-missing cells are untouched. -/
def imputeFill (s : ImputeStrategy) (cells : List Cell) : List Cell :=
  match fillValue s cells with
  | Option.none => cells
  | Option.some v =>
    cells.map fun c =>
      match c with
      | Option.none => some v
      | Option.some w => some w

/-- A printable label for a category value. -/
def valueLabel (v : Value) : String :=
  match v with
  | .str s => s
  | .num q => toString q.num ++ "/" ++ toString q.den

/-- The 0/1 indicator column for one category. -/
def indicatorCol (nm : String) (cells : List Cell) (v : Value) : String × List Cell :=
  ( nm ++ "_" ++ valueLabel v
  , cells.map fun c =>
      match c with
      | Option.some w => some (Value.num (if Value.beqv w v then 1 else 0))
      | Option.none => some (Value.num 0) )

/-- Modelled from the spec: one-hot expansion. One indicator column per
observed category; when cardinality exceeds the threshold at execution
time, indicators for the first threshold - 1 categories plus an explicit
other bucket. The original column is removed (it does not appear in the
output). -/
def encodeCells (nm : String) (cells : List Cell) : List (String × List Cell) :=
  if (dedupVals (presentVals cells)).length ≤ oneHotThreshold then
    (dedupVals (presentVals cells)).map (indicatorCol nm cells)
  else
    ((dedupVals (presentVals cells)).take (oneHotThreshold - 1)).map (indicatorCol nm cells)
      ++ [( nm ++ "_other"
          , cells.map fun c =>
              match c with
              | Option.some w =>
                some (Value.num
                  (if ((dedupVals (presentVals cells)).take (oneHotThreshold - 1)).any
                      (Value.beqv w) then 0 else 1))
              | Option.none => some (Value.num 0) )]

/-- Integer square root approximation of a fraction, the computable
stand-in for the standard deviation square root. -/
def fracSqrt (q : Frac) : Frac :=
  if q.num ≤ 0 then 0 else ⟨(Nat.sqrt (q.num.toNat * q.den.toNat) : Int), q.den⟩

/-- Scaling rewrites numeric cells in place from statistics of the
current (already imputed) column; zero spread leaves values centred
without rescaling. Non-numeric and missing cells are untouched. -/
def scaleCells (k : ScalingKind) (cells : List Cell) : List Cell :=
  match k with
  | .none => cells
  | .standard =>
    let xs := numericVals cells
    let m := listMean xs
    let sd := fracSqrt (sampleVar xs)
    cells.map fun c =>
      match c with
      | Option.some (Value.num q) =>
        some (Value.num (if sd.num = 0 then q - m else (q - m) / sd))
      | other => other
  | .minmax =>
    let xs := numericVals cells
    let lo := listMin xs
    let hi := listMax xs
    let range := hi - lo
    cells.map fun c =>
      match c with
      | Option.some (Value.num q) =>
        some (Value.num (if range.num = 0 then q - lo else (q - lo) / range))
      | other => other

/-- Per-column execution, in the fixed order imputation, then encoding,
then scaling; encoding may replace the column by several indicator
columns. -/
def transformColumn (nm : String) (cells : List Cell) (dir : Directive) :
    List (String × List Cell) :=
  let c1 := imputeFill dir.imputation cells
  let cols :=
    match dir.encoding with
    | .one_hot => encodeCells nm c1
    | .none => [(nm, c1)]
  cols.map fun e => (e.1, scaleCells dir.scaling e.2)

/-- A change-log entry: a column removed or added by encoding. -/
inductive ChangeEntry
  | removed (col : String)
  | added (col : String)
deriving DecidableEq, Repr

/-- The transformed table plus change log and (unchanged) row count. -/
structure ExecutionResult where
  table : Table
  changeLog : List ChangeEntry
  rowCount : Nat
deriving DecidableEq, Repr

/-- Engine error kinds (spec, section 7). -/
inductive EngineError
  | notFound
  | emptyDataset
  | planMismatch
  | conflictingWrite
  | invalidMode
deriving DecidableEq, Repr

/-- The directive a plan assigns to a column (no-op when absent). -/
def directiveFor (plan : Plan) (c : String) : Directive :=
  (plan.lookup c).getD noopDirective

/-- Columns a plan references that the dataset does not have. -/
def planMismatchCols (d : Table) (plan : Plan) : List String :=
  (plan.map Prod.fst).filter fun c => !(d.map Prod.fst).contains c

/-- The transformed table. -/
def execTable (d : Table) (plan : Plan) : Table :=
  (d.map fun col => transformColumn col.1 col.2 (directiveFor plan col.1)).flatten

/-- The change log: for every one-hot encoded column the removal of the
original and the additions of its indicator columns. -/
def mkChangeLog (d : Table) (plan : Plan) : List ChangeEntry :=
  (d.map fun col =>
    match (directiveFor plan col.1).encoding with
    | .one_hot =>
      ChangeEntry.removed col.1
        :: (encodeCells col.1 (imputeFill (directiveFor plan col.1).imputation col.2)).map
            fun e => ChangeEntry.added e.1
    | .none => []).flatten

/-- Modelled from the spec: `execute` applies a plan to a dataset,
failing with PlanMismatch when the plan references absent columns; the
result carries the input row count (the row index is preserved even when
encoding drops columns). -/
def execute (d : Table) (plan : Plan) : Except EngineError ExecutionResult :=
  if planMismatchCols d plan ≠ [] then .error .planMismatch
  else .ok { table := execTable d plan, changeLog := mkChangeLog d plan, rowCount := d.rowCount }

/-! ### Plan override merge (modelled from the spec, sections 3 and 6) -/

/-- A partial per-column override as it arrives from the API layer: each
of the three directive fields optional, plus whatever unknown fields the
caller sent. -/
structure OverrideDirective where
  imputation : Option ImputeStrategy
  encoding : Option EncodingKind
  scaling : Option ScalingKind
  unknownFields : List (String × String)
deriving DecidableEq, Repr

/-- A partial plan override: column name to partial directive. -/
abbrev PlanOverride := List (String × OverrideDirective)

/-- Merge one directive: every field given by the override replaces the
recommended value, unspecified fields keep it, unknown fields are
ignored. -/
def mergeDirective (d : Directive) (o : OverrideDirective) : Directive :=
  { imputation := o.imputation.getD d.imputation
  , encoding := o.encoding.getD d.encoding
  , scaling := o.scaling.getD d.scaling }

/-- Merge an optional override into a recommended directive. -/
def applyOverride (d : Directive) (o : Option OverrideDirective) : Directive :=
  match o with
  | Option.none => d
  | Option.some ov => mergeDirective d ov

/-- Modelled from the spec: a partial override merged into the
recommended plan, column by column, before execution. -/
def mergePlan (recPlan : Plan) (ov : PlanOverride) : Plan :=
  recPlan.map fun e => (e.1, applyOverride e.2 (ov.lookup e.1))

/-! ### Version Manager and Dataset Store (modelled from the spec, 4.5) -/

/-- A dataset handle: identifier, current version, file extension and the
stored path of the current content. -/
structure Handle where
  id : String
  version : Nat
  ext : String
  origPath : String
deriving DecidableEq, Repr

/-- The Dataset Store: stored path to table. -/
abbrev Store := List (String × Table)

/-- Read a stored table. -/
def storeRead (s : Store) (p : String) : Option Table :=
  s.lookup p

/-- Write (insert or replace) a stored table under a path, atomically. -/
def storeWrite (s : Store) (p : String) (t : Table) : Store :=
  (p, t) :: s.filter fun e => e.1 != p

/-- The naming convention for a versioned persist. -/
def versionedPath (h : Handle) : String :=
  h.id ++ "_v" ++ toString (h.version + 1) ++ "." ++ h.ext

/-- The outcome of a persistence decision. -/
structure PersistOutcome where
  mode : String
  datasetId : String
  version : Nat
  path : Option String
deriving DecidableEq, Repr

/-- Modelled from the spec: the Version Manager. `preview` discards the
result without touching the store; `versioned` writes under the derived
identifier; `overwrite` replaces the content at the original path and
bumps the version; any other mode fails with InvalidMode. -/
def persist (r : ExecutionResult) (mode : String) (h : Handle) (s : Store) :
    Except EngineError (PersistOutcome × Store) :=
  if mode = "preview" then
    .ok ({ mode := mode, datasetId := h.id, version := h.version, path := Option.none }, s)
  else if mode = "versioned" then
    .ok ({ mode := mode, datasetId := h.id, version := h.version + 1
         , path := some (versionedPath h) }
        , storeWrite s (versionedPath h) r.table)
  else if mode = "overwrite" then
    .ok ({ mode := mode, datasetId := h.id, version := h.version + 1
         , path := some h.origPath }
        , storeWrite s h.origPath r.table)
  else .error .invalidMode

/-- Modelled from the spec: the fallible stages of one preprocessing
request: read the dataset, profile it, recommend, merge the caller
override, execute, persist; a success carries the updated store. -/
def processStages (s : Store) (h : Handle) (ov : PlanOverride) (mode : String) :
    Except EngineError (PersistOutcome × Store) :=
  match storeRead s h.origPath with
  | Option.none => .error .notFound
  | Option.some d =>
    if d.isEmpty || d.rowCount = 0 then .error .emptyDataset
    else
      match execute d (mergePlan (recommend (profileTable d)) ov) with
      | .error e => .error e
      | .ok r => persist r mode h s

/-- Modelled from the spec: one complete preprocessing request as a
transaction over the store: on any stage failure the caller keeps the
store exactly as it was when the request began. -/
def processRequest (s : Store) (h : Handle) (ov : PlanOverride) (mode : String) :
    Except EngineError PersistOutcome × Store :=
  match processStages s h ov mode with
  | .error e => (.error e, s)
  | .ok (o, s2) => (.ok o, s2)

/-! ## Shared fixtures and helper lemmas -/

/-- Scenario A column of the spec: `[1, 2, 3, 4, 100]`. -/
def colScenarioA : List Cell :=
  [some (.num 1), some (.num 2), some (.num 3), some (.num 4), some (.num 100)]

/-- A tiny two-row sample table. -/
def sampleTable : Table := [("c", [some (.num 1), Option.none])]

/-- The no-op plan for the sample table. -/
def samplePlan : Plan := [("c", noopDirective)]

/-- The execution result of the no-op plan on the sample table. -/
def sampleResult : ExecutionResult :=
  { table := sampleTable, changeLog := [], rowCount := 2 }

/-- The handle of the spec scenarios C and D. -/
def handleDs1 : Handle := { id := "ds1", version := 1, ext := "csv", origPath := "ds1.csv" }

/-- A one-entry store holding the sample table at the ds1 path. -/
def sampleStore : Store := [("ds1.csv", sampleTable)]

theorem length_imputeFill (s : ImputeStrategy) (cells : List Cell) :
    (imputeFill s cells).length = cells.length := by
  unfold imputeFill
  cases fillValue s cells <;> simp

theorem length_scaleCells (k : ScalingKind) (cells : List Cell) :
    (scaleCells k cells).length = cells.length := by
  cases k <;> simp [scaleCells]

theorem mem_encodeCells {nm : String} {cells : List Cell}
    {e : String × List Cell} (he : e ∈ encodeCells nm cells) :
    e.2.length = cells.length := by
  unfold encodeCells at he
  split at he
  · obtain ⟨v, _, rfl⟩ := List.mem_map.mp he
    simp [indicatorCol]
  · rcases List.mem_append.mp he with hk | ho
    · obtain ⟨v, _, rfl⟩ := List.mem_map.mp hk
      simp [indicatorCol]
    · simp at ho
      subst ho
      simp

theorem mem_transformColumn {nm : String} {cells : List Cell} {dir : Directive}
    {e : String × List Cell} (he : e ∈ transformColumn nm cells dir) :
    e.2.length = cells.length := by
  unfold transformColumn at he
  obtain ⟨a, ha, rfl⟩ := List.mem_map.mp he
  rw [length_scaleCells, ← length_imputeFill dir.imputation cells]
  revert ha
  cases dir.encoding with
  | one_hot => exact fun ha => mem_encodeCells ha
  | none =>
    intro ha
    simp at ha
    rw [ha]

theorem lookup_filter_ne (s : Store) (p q : String) (hpq : p ≠ q) :
    (s.filter fun e => e.1 != q).lookup p = s.lookup p := by
  induction s with
  | nil => rfl
  | cons a l ih =>
    by_cases ha : a.1 = q
    · have hb : (p == a.1) = false :=
        beq_eq_false_iff_ne.mpr fun hh => hpq (hh.trans ha)
      have hq : (a.1 != q) = false := by simp [bne, ha]
      simp [List.filter_cons, hq, List.lookup, hb, ih]
    · have hq : (a.1 != q) = true := by simp [bne, ha]
      cases hb : (p == a.1) <;> simp [List.filter_cons, hq, List.lookup, hb, ih]

theorem storeRead_storeWrite (s : Store) (q : String) (t : Table) (p : String) :
    storeRead (storeWrite s q t) p = if p = q then some t else storeRead s p := by
  unfold storeRead storeWrite
  by_cases hpq : p = q
  · subst hpq
    simp [List.lookup]
  · have hb : (p == q) = false := beq_eq_false_iff_ne.mpr hpq
    simp only [List.lookup, hb, if_neg hpq]
    exact lookup_filter_ne s p q hpq

theorem methodsFor_ne_nil (cells : List Cell) (x : Frac) :
    methodsFor cells x ≠ [] ↔ (iqrFlag cells x = true ∨ zscoreFlag cells x = true) := by
  unfold methodsFor
  cases h1 : iqrFlag cells x <;> cases h2 : zscoreFlag cells x <;> simp

/-! ## Claim theorems -/

/-- C9: `validateFile` accepts exactly the non-null files whose lowercased
name ends with a supported extension and whose size is at most
100 * 1024 * 1024 bytes; a file of exactly 100 MB is accepted, and any
strictly larger file is rejected with the size error. -/
theorem validateFile_spec :
    (∀ sf : Option UploadFile,
      ((validateFile sf).1 = true ↔
        ∃ f, sf = some f
          ∧ supportedTypes.any (fun t => endsWithStr (lowerStr f.name) t) = true
          ∧ f.size ≤ maxFileSize))
    ∧ validateFile (some { name := "data.csv", size := maxFileSize }) = (true, Option.none)
    ∧ (∀ f : UploadFile, f.size > maxFileSize →
        validateFile (some f) = (false, some "File size exceeds 100MB limit")) := by
  refine ⟨?_, by decide, ?_⟩
  · intro sf
    cases sf with
    | none => simp [validateFile]
    | some f =>
      by_cases hs : f.size > maxFileSize
      · have hs2 : ¬ f.size ≤ maxFileSize := by omega
        simp [validateFile, hs, hs2]
      · have hs2 : f.size ≤ maxFileSize := by omega
        cases hv : supportedTypes.any (fun t => endsWithStr (lowerStr f.name) t) with
        | false =>
          simp [validateFile, hs, hv, hs2]
          simpa using List.any_eq_false.mp hv
        | true =>
          simp [validateFile, hs, hv, hs2]
          simpa using List.any_eq_true.mp hv
  · intro f hf
    simp [validateFile, hf]

/-- C9 witness: the theorem applied to a file one byte over the limit. -/
theorem validateFile_spec_witness :
    ({ name := "data.csv", size := maxFileSize + 1 } : UploadFile).size > maxFileSize
    ∧ validateFile (some { name := "data.csv", size := maxFileSize + 1 })
        = (false, some "File size exceeds 100MB limit") :=
  ⟨by decide, validateFile_spec.2.2 { name := "data.csv", size := maxFileSize + 1 } (by decide)⟩

/-- C10: `validateDescription` succeeds exactly when the trimmed length is
at least 10 and the untrimmed length at most 1000; otherwise it records
the single error of the first violated guard, and `handleUpload` issues
the upload request only when both validators succeed. -/
theorem validateDescription_spec :
    (∀ desc : String,
      ((validateDescription desc).1 = true ↔
        10 ≤ strLen (trimStr desc) ∧ strLen desc ≤ 1000))
    ∧ (∀ desc : String, strLen (trimStr desc) = 0 →
        (validateDescription desc).2 = some "Description is required")
    ∧ (∀ desc : String, 1 ≤ strLen (trimStr desc) → strLen (trimStr desc) ≤ 9 →
        (validateDescription desc).2 = some "Description must be at least 10 characters")
    ∧ (∀ desc : String, 10 ≤ strLen (trimStr desc) → 1000 < strLen desc →
        (validateDescription desc).2 = some "Description must not exceed 1000 characters")
    ∧ (∀ (sf : Option UploadFile) (desc : String),
        handleUploadProceeds sf desc = true ↔
          (validateFile sf).1 = true ∧ (validateDescription desc).1 = true) := by
  refine ⟨?_, ?_, ?_, ?_, ?_⟩
  · intro desc
    by_cases he : strLen (trimStr desc) = 0
    · simp [validateDescription, he]
    · by_cases h10 : strLen (trimStr desc) < 10
      · simp [validateDescription, he, h10]
      · by_cases h1000 : strLen desc > 1000
        · simp [validateDescription, he, h10, h1000]
        · simp [validateDescription, he, h10, h1000]
          omega
  · intro desc h0
    simp [validateDescription, h0]
  · intro desc h1 h9
    have he : ¬ strLen (trimStr desc) = 0 := by omega
    have h10 : strLen (trimStr desc) < 10 := by omega
    simp [validateDescription, he, h10]
  · intro desc h10 h1000
    have he : ¬ strLen (trimStr desc) = 0 := by omega
    have h10n : ¬ strLen (trimStr desc) < 10 := by omega
    simp [validateDescription, he, h10n, h1000]
  · intro sf desc
    simp [handleUploadProceeds]

/-- C10 witness: the theorem applied to the empty description and to a
description shorter than ten characters. -/
theorem validateDescription_spec_witness :
    strLen (trimStr "") = 0
    ∧ (validateDescription "").2 = some "Description is required"
    ∧ 1 ≤ strLen (trimStr "short") ∧ strLen (trimStr "short") ≤ 9
    ∧ (validateDescription "short").2 = some "Description must be at least 10 characters" :=
  ⟨by decide, validateDescription_spec.2.1 "" (by decide), by decide, by decide,
    validateDescription_spec.2.2.1 "short" (by decide) (by decide)⟩

/-- C1: on a well-formed dataset a successful `execute` returns the input
row count unchanged, and every column of the transformed table still has
exactly that many rows — no transformation drops or filters rows. -/
theorem execute_row_invariant :
    ∀ (d : Table) (plan : Plan) (r : ExecutionResult),
      d.Wellformed → execute d plan = .ok r →
      r.rowCount = d.rowCount ∧ ∀ e ∈ r.table, e.2.length = d.rowCount := by
  intro d plan r hwf hex
  unfold execute at hex
  split at hex
  · exact absurd hex (by simp)
  · have hr : r = { table := execTable d plan, changeLog := mkChangeLog d plan
                  , rowCount := d.rowCount } := by
      cases hex
      rfl
    subst hr
    refine ⟨rfl, ?_⟩
    intro e he
    simp only [execTable] at he
    obtain ⟨cols, hcols, hecols⟩ := List.mem_flatten.mp he
    obtain ⟨col, hcol, rfl⟩ := List.mem_map.mp hcols
    exact (mem_transformColumn hecols).trans (hwf col hcol)

/-- C1 witness: the theorem applied to the two-row sample table and its
no-op plan. -/
theorem execute_row_invariant_witness :
    (sampleTable).Wellformed
    ∧ execute sampleTable samplePlan = .ok sampleResult
    ∧ (sampleResult.rowCount = sampleTable.rowCount
        ∧ ∀ e ∈ sampleResult.table, e.2.length = sampleTable.rowCount) :=
  ⟨by decide, by rfl, execute_row_invariant sampleTable samplePlan sampleResult (by decide) rfl⟩

/-- C2: `execute` is a pure function of the dataset and the plan: any two
runs on the same inputs return bit-identical results (and the dataset
value itself, being immutable in the model, is untouched). -/
theorem execute_deterministic :
    ∀ (d : Table) (p : Plan) (r1 r2 : Except EngineError ExecutionResult),
      execute d p = r1 → execute d p = r2 → r1 = r2 := by
  intro d p r1 r2 h1 h2
  rw [← h1, ← h2]

/-- C2 witness: two runs on the sample table give the same result. -/
theorem execute_deterministic_witness :
    execute sampleTable samplePlan = .ok sampleResult
    ∧ (Except.ok sampleResult : Except EngineError ExecutionResult) = .ok sampleResult :=
  ⟨by rfl, execute_deterministic sampleTable samplePlan (.ok sampleResult) (.ok sampleResult)
      (by rfl) (by rfl)⟩

/-- C3: persisting in `preview` mode succeeds and returns the store
unchanged, so re-reading any stored dataset afterwards yields exactly
what it held before, and repeating the call gives the identical outcome:
the call is idempotent and free of store side effects. -/
theorem persist_preview_pure :
    ∀ (r : ExecutionResult) (h : Handle) (s : Store),
      persist r "preview" h s
        = .ok ({ mode := "preview", datasetId := h.id
               , version := h.version, path := Option.none }, s) := by
  intro r h s
  rfl

/-- C4: persisting in `versioned` mode writes the transformed table at
the derived path `{id}_v{n+1}.{ext}` and leaves every other stored path
untouched; for the handle ds1 v1 csv the derived path is `ds1_v2.csv`. -/
theorem persist_versioned_spec :
    ∀ (r : ExecutionResult) (h : Handle) (s : Store),
      (persist r "versioned" h s
        = .ok ({ mode := "versioned", datasetId := h.id, version := h.version + 1
               , path := some (versionedPath h) }
              , storeWrite s (versionedPath h) r.table))
      ∧ (∀ p, p ≠ versionedPath h →
          storeRead (storeWrite s (versionedPath h) r.table) p = storeRead s p)
      ∧ storeRead (storeWrite s (versionedPath h) r.table) (versionedPath h) = some r.table
      ∧ versionedPath handleDs1 = "ds1_v2.csv" := by
  intro r h s
  refine ⟨rfl, ?_, ?_, by decide⟩
  · intro p hp
    rw [storeRead_storeWrite, if_neg hp]
  · rw [storeRead_storeWrite, if_pos rfl]

/-- C4 witness: the theorem applied at the ds1 handle shows the original
`ds1.csv` content still readable after the versioned write. -/
theorem persist_versioned_spec_witness :
    ("ds1.csv" ≠ versionedPath handleDs1)
    ∧ storeRead (storeWrite sampleStore (versionedPath handleDs1) sampleResult.table) "ds1.csv"
        = storeRead sampleStore "ds1.csv" :=
  ⟨by decide,
    (persist_versioned_spec sampleResult handleDs1 sampleStore).2.1 "ds1.csv" (by decide)⟩

/-- C5: a row index appears in the outlier report of a column exactly
when its numeric value is flagged by the IQR detector or by the z-score
detector, and the methods recorded for it are precisely the flagging
detectors; on the scenario column [1, 2, 3, 4, 100] the value 100 is
reported through IQR alone, its z-score staying below 3. -/
theorem detectOutliers_spec :
    (∀ (cells : List Cell) (i : Nat) (ms : List Method),
      ((i, ms) ∈ detectOutliers cells ↔
        ∃ x, (i, x) ∈ numericPoints cells ∧ ms = methodsFor cells x
          ∧ (iqrFlag cells x = true ∨ zscoreFlag cells x = true)))
    ∧ detectOutliers colScenarioA = [(4, [Method.iqr])]
    ∧ iqrFlag colScenarioA 100 = true
    ∧ zscoreFlag colScenarioA 100 = false := by
  refine ⟨?_, by decide, by decide, by decide⟩
  intro cells i ms
  unfold detectOutliers
  rw [List.mem_filterMap]
  constructor
  · rintro ⟨p, hp, hsome⟩
    by_cases hemp : methodsFor cells p.2 = []
    · rw [if_pos hemp] at hsome
      exact absurd hsome (by simp)
    · rw [if_neg hemp] at hsome
      have hip : p.1 = i ∧ methodsFor cells p.2 = ms := by
        constructor <;> cases hsome <;> rfl
      refine ⟨p.2, ?_, hip.2.symm, (methodsFor_ne_nil cells p.2).mp hemp⟩
      rw [← hip.1]
      exact hp
  · rintro ⟨x, hx, hms, hflag⟩
    refine ⟨(i, x), hx, ?_⟩
    rw [if_neg ((methodsFor_ne_nil cells x).mpr hflag), hms]

/-- C6: `recommend` is a pure total function of the profiles: profiling
the same dataset twice and recommending gives identical plans, and the
recommended plan always covers every profiled column, one directive
each, so it never fails on valid profiles. -/
theorem recommend_pure :
    (∀ d : Table, recommend (profileTable d) = recommend (profileTable d))
    ∧ (∀ ps : List ColumnProfile, (recommend ps).map Prod.fst = ps.map ColumnProfile.name) := by
  constructor
  · intro d
    rfl
  · intro ps
    simp [recommend]

/-- C7: the merge of a recommended plan with a partial override takes,
for every column, exactly the directive fields the override specifies,
keeps the recommended value for unspecified fields, ignores unknown
fields, and leaves columns without an override entry at their
recommendation. -/
theorem mergePlan_spec :
    (∀ (rp : Plan) (ov : PlanOverride) (c : String),
      (mergePlan rp ov).lookup c = (rp.lookup c).map fun d => applyOverride d (ov.lookup c))
    ∧ (∀ (d : Directive) (o : OverrideDirective),
        (mergeDirective d o).imputation = o.imputation.getD d.imputation
        ∧ (mergeDirective d o).encoding = o.encoding.getD d.encoding
        ∧ (mergeDirective d o).scaling = o.scaling.getD d.scaling)
    ∧ (∀ (d : Directive) (o : OverrideDirective) (u : List (String × String)),
        mergeDirective d { o with unknownFields := u } = mergeDirective d o)
    ∧ (∀ d : Directive, applyOverride d Option.none = d) := by
  refine ⟨?_, fun d o => ⟨rfl, rfl, rfl⟩, fun d o u => rfl, fun d => rfl⟩
  intro rp ov c
  induction rp with
  | nil => rfl
  | cons a l ih =>
    simp only [mergePlan, List.map_cons, List.lookup]
    cases hb : (c == a.1) with
    | true =>
      have : c = a.1 := eq_of_beq hb
      subst this
      rfl
    | false =>
      simpa using ih

/-- C8: a preprocessing request is atomic with respect to the Dataset
Store: whenever any stage of `processRequest` fails, the store returned
with the error is exactly the store the request began with — no partial
version or partial write is observable. -/
theorem processRequest_atomic :
    ∀ (s : Store) (h : Handle) (ov : PlanOverride) (mode : String) (e : EngineError),
      (processRequest s h ov mode).1 = .error e → (processRequest s h ov mode).2 = s := by
  intro s h ov mode e
  unfold processRequest
  cases processStages s h ov mode with
  | error e2 => intro _; rfl
  | ok os =>
    obtain ⟨o, s2⟩ := os
    intro hc
    simp at hc

/-- C8 witness: a request against an empty store fails with NotFound and
returns the store unchanged. -/
theorem processRequest_atomic_witness :
    (processRequest [] handleDs1 [] "preview").1 = .error .notFound
    ∧ (processRequest [] handleDs1 [] "preview").2 = [] :=
  ⟨by rfl, processRequest_atomic [] handleDs1 [] "preview" .notFound (by rfl)⟩

end DataTool
